import Mathlib

/-!
Shallow embedding of the `client-ws` WebSocket wrapper (`src/index.ts`).

JavaScript objects used as string-keyed maps (`eventListeners`,
`sendMessageQueue`, payload objects) are modeled as association lists
that preserve insertion order, mirroring JS string-key enumeration order.
Timers (`setTimeout`) are modeled as explicit state: an armed timer is a
stored delay, and the timer body is a separate step function that the
environment may fire.  Nondeterministic key generation
(`generateUniqueKey`, Date.now/Math.random based) is modeled by passing
the fresh key as an argument.  Callbacks and event listeners are opaque
to the controller; we record their invocations (with which argument) as
effect lists instead of executing them.
-/

namespace ClientWs

/-- First field value stored under key `k` (JS property read `obj[k]`). -/
def lookupField {α : Type} (fs : List (String × α)) (k : String) : Option α :=
  (fs.find? (fun p => p.1 == k)).map (fun p => p.2)

/-- JS property write `obj[k] = v`: overwrite in place if the key exists,
otherwise append (insertion order preserved). -/
def setField {α : Type} (fs : List (String × α)) (k : String) (v : α) : List (String × α) :=
  if fs.any (fun p => p.1 == k) then
    fs.map (fun p => if p.1 == k then (k, v) else p)
  else
    fs ++ [(k, v)]

/-- JS `delete obj[k]`. -/
def removeField {α : Type} (fs : List (String × α)) (k : String) : List (String × α) :=
  fs.filter (fun p => p.1 != k)

/-- `Object.assign(base, extra)`: copy `extra`'s fields into `base`
left to right, later writes overwriting earlier values. -/
def objectAssign {α : Type} (base extra : List (String × α)) : List (String × α) :=
  extra.foldl (fun acc kv => setField acc kv.1 kv.2) base

/-- `JSON.stringify` restricted to flat string-valued objects. -/
def jsonStringify (fs : List (String × String)) : String :=
  "\x7b" ++ String.intercalate ","
    (fs.map (fun p => "\"" ++ p.1 ++ "\":\"" ++ p.2 ++ "\"")) ++ "\x7d"

/-- `WebSocket.readyState` values. -/
inductive ReadyState
  | connecting
  | opened
  | closing
  | closed
deriving DecidableEq

/-- Resolved configuration (`Required<Options>`), defaults as merged in the
constructor (index.ts lines 36-46). -/
structure Options where
  url : String
  timeout : Nat := 5000
  reconnect : Bool := true
  reconnectInterval : Nat := 5000
  reconnectMaxInterval : Nat := 10000
  reconnectMaxTimes : Nat := 0
  uniqueKey : String := "message_id"
  cacheMessage : Bool := false
  maxCacheMessage : Nat := 100
deriving DecidableEq

/-- A `sendMessage` payload: `data` is either raw text or a structured
(string-keyed, string-valued) object. -/
inductive Payload
  | str (s : String)
  | obj (fields : List (String × String))
deriving DecidableEq

/-- One `messageCache` entry: `{data, callback}`.  The callback itself is
opaque; we record only whether one was supplied. -/
structure CacheEntry where
  data : Payload
  hasCallback : Bool
deriving DecidableEq

/-- One `sendMessageQueue` entry: `{message, callback}`. -/
structure QueueEntry where
  message : String
  hasCallback : Bool
deriving DecidableEq

/-- Mutable instance state of a `ClientWs` object.  `ws` is the transport
handle (`null` or a socket in some ready state); `reconnectTimeout` is the
armed reconnect timer, recorded as its delay (`null` when no timer is
armed). -/
structure St where
  ws : Option ReadyState
  reconnectAttempts : Nat
  reconnectTimeout : Option Nat
  isHandleClose : Bool
  messageCache : List CacheEntry
  sendMessageQueue : List (String × QueueEntry)
  options : Options
deriving DecidableEq

/-- Argument of a recorded `MessageCallback` invocation:
`callback(error, data)` with either a failure message or a payload. -/
inductive CbArg
  | failure (msg : String)
  | success (fields : List (String × String))
deriving DecidableEq

/-- Effects of one `sendMessage` call: resulting state, invocations of the
caller-supplied callback, strings passed to `ws.send`, and a thrown error. -/
structure SendResult where
  state : St
  cbCalls : List CbArg
  sent : List String
  thrown : Option String
deriving DecidableEq

/-- The caching step of `sendMessage` (index.ts lines 215-224): when
`cacheMessage` is set and no transport exists, append to `messageCache`;
when the cache is full, `shift()` the oldest entry first. -/
def cacheStep (s : St) (data : Payload) (hasCallback : Bool) : St :=
  if s.options.cacheMessage ∧ s.ws = none then
    if s.messageCache.length < s.options.maxCacheMessage then
      { s with messageCache := s.messageCache ++ [⟨data, hasCallback⟩] }
    else
      { s with messageCache := s.messageCache.tail ++ [⟨data, hasCallback⟩] }
  else s

/-- The object built at index.ts line 242:
`Object.assign({}, {[uniqueKey]: key}, data)`. -/
def mergedPayload (uniqueKey freshKey : String) (fields : List (String × String)) :
    List (String × String) :=
  objectAssign (objectAssign [] [(uniqueKey, freshKey)]) fields

/-- The part of `sendMessage` after the caching step (index.ts lines
226-245), acting on the post-cache state `s1`. -/
def sendMessageAfterCache (s1 : St) (freshKey : String) (data : Payload)
    (hasCallback : Bool) : SendResult :=
  if s1.ws = some ReadyState.opened then
    match data with
    | .str t => ⟨s1, [], [t], none⟩
    | .obj fields =>
        let message := jsonStringify (mergedPayload s1.options.uniqueKey freshKey fields)
        ⟨{ s1 with sendMessageQueue :=
              setField s1.sendMessageQueue freshKey ⟨message, hasCallback⟩ },
         [], [message], none⟩
  else
    ⟨s1, if hasCallback then [CbArg.failure "websocket 未连接"] else [], [], none⟩

/-- `sendMessage(data, callback?)` (index.ts lines 214-246).  `freshKey` is
the value `generateUniqueKey()` would return on this call.  After the
caching step, a missing or non-open transport invokes the callback with a
"websocket 未连接" failure and returns; raw text is sent verbatim; an
object payload is merged with `Object.assign({}, {[uniqueKey]: key}, data)`,
serialized, registered in `sendMessageQueue` under the fresh key, and sent.
(The `typeof` guard that throws on non-string/non-object data has no
inhabitant in `Payload` and is omitted.) -/
def sendMessage (s : St) (freshKey : String) (data : Payload) (hasCallback : Bool) :
    SendResult :=
  sendMessageAfterCache (cacheStep s data hasCallback) freshKey data hasCallback

/-- An inbound frame as seen after the `JSON.parse` attempt: either the
parse threw, or it produced a structured object. -/
inductive Inbound
  | unparsable
  | parsed (fields : List (String × String))
deriving DecidableEq

/-- Effects of one `messageHandler` run: resulting state, emitted event
names, pending-callback invocations `(key, argument)`, and whether the
surrounding `try/catch` caught (and `console.error`-logged) an exception. -/
structure MsgResult where
  state : St
  events : List String
  cbCalls : List (String × CbArg)
  logged : Bool
deriving DecidableEq

/-- `messageHandler(event)` (index.ts lines 124-146): emit `message`
unconditionally, then parse; on a structured payload carrying a truthy
value under `options.uniqueKey`, read `sendMessageQueue[uniqueKey].callback`
— a missing entry makes that property read throw, caught by the handler's
`catch` — and, when a callback exists, invoke it with the payload if the
socket is open (else a "websocket connection is not open" failure) and
delete the entry.  An entry without a callback is left in place. -/
def messageHandler (s : St) (raw : Inbound) : MsgResult :=
  match raw with
  | .unparsable => ⟨s, ["message"], [], true⟩
  | .parsed fields =>
    match lookupField fields s.options.uniqueKey with
    | none => ⟨s, ["message"], [], false⟩
    | some v =>
      if v = "" then ⟨s, ["message"], [], false⟩
      else
        match lookupField s.sendMessageQueue v with
        | none => ⟨s, ["message"], [], true⟩
        | some entry =>
          if entry.hasCallback then
            ⟨{ s with sendMessageQueue := removeField s.sendMessageQueue v },
             ["message"],
             [(v, if s.ws = some ReadyState.opened then CbArg.success fields
                  else CbArg.failure "websocket connection is not open")],
             false⟩
          else ⟨s, ["message"], [], false⟩

/-- The backoff delay of index.ts line 92:
`Math.min(reconnectInterval * Math.pow(2, reconnectAttempts), reconnectMaxInterval)`. -/
def exponentialBackoff (interval maxInterval attempts : Nat) : Nat :=
  min (interval * 2 ^ attempts) maxInterval

/-- Effects of a lifecycle step: resulting state, emitted event names, and
a thrown error. -/
structure RecResult where
  state : St
  events : List String
  thrown : Option String
deriving DecidableEq

/-- `reconnect()` (index.ts lines 79-98): no-op without a transport; throws
once `reconnectMaxTimes` is nonzero and reached; otherwise cancels any
armed reconnect timer, returns if the socket is connecting or open, else
arms a timer with the exponential-backoff delay. -/
def reconnect (s : St) : RecResult :=
  match s.ws with
  | none => ⟨s, [], none⟩
  | some rs =>
    if s.options.reconnectMaxTimes ≠ 0 ∧ s.options.reconnectMaxTimes ≤ s.reconnectAttempts then
      ⟨s, [], some "Max reconnect attempts reached"⟩
    else if rs = ReadyState.connecting ∨ rs = ReadyState.opened then
      ⟨{ s with reconnectTimeout := none }, [], none⟩
    else
      ⟨{ s with reconnectTimeout :=
            some (exponentialBackoff s.options.reconnectInterval
                    s.options.reconnectMaxInterval s.reconnectAttempts) },
       [], none⟩

/-- Body of the timer armed by `reconnect` (index.ts lines 93-97): create a
new transport, bind events, increment the attempt counter.  It runs
unconditionally when the armed timer fires; firing consumes the timer. -/
def reconnectTimerFire (s : St) : St :=
  { s with ws := some ReadyState.connecting,
           reconnectAttempts := s.reconnectAttempts + 1,
           reconnectTimeout := none }

/-- `closeHandler(event)` (index.ts lines 114-118): emit `close`, then
reconnect only when the `reconnect` option is set and the close was not
user initiated. -/
def closeHandler (s : St) : RecResult :=
  if s.options.reconnect ∧ ¬ s.isHandleClose then
    let r := reconnect s
    ⟨r.state, "close" :: r.events, r.thrown⟩
  else ⟨s, ["close"], none⟩

/-- `openHandler(event)` (index.ts lines 107-112): clear the
user-initiated-close flag, reset the attempt counter, emit `open`;
the subsequent `sendCachedMessages()` replay is modeled by
`sendCachedMessages` below. -/
def openHandler (s : St) : RecResult :=
  ⟨{ s with isHandleClose := false, reconnectAttempts := 0 }, ["open"], none⟩

/-- `errorHandler(event)` (index.ts lines 120-122). -/
def errorHandler (s : St) : RecResult :=
  ⟨s, ["error"], none⟩

/-- Result of `connect()`: the new state and whether a connection-timeout
guard was armed (`options.timeout` truthy). -/
structure ConnectResult where
  state : St
  guardArmed : Bool
deriving DecidableEq

/-- `connect()` (index.ts lines 49-71): warn-and-return when a transport
already exists, otherwise create one and arm the timeout guard.  The guard
body is `timeoutGuardFire` below. -/
def connect (s : St) : ConnectResult :=
  match s.ws with
  | some _ => ⟨s, false⟩
  | none => ⟨{ s with ws := some ReadyState.connecting }, s.options.timeout != 0⟩

/-- Body of the `connect()` timeout guard (index.ts lines 59-69): a no-op
when `isHandleClose` is set or the socket opened in time; otherwise force
the half-open socket closed, emit a synthetic `error`, and, with
`reconnect` enabled, bump the attempt counter and call `reconnect`. -/
def timeoutGuardFire (s : St) : RecResult :=
  if s.isHandleClose then ⟨s, [], none⟩
  else
    match s.ws with
    | none => ⟨s, [], none⟩
    | some rs =>
      if rs = ReadyState.opened then ⟨s, [], none⟩
      else
        let s1 : St := { s with ws := some ReadyState.closing }
        if s1.options.reconnect then
          let s2 : St := { s1 with reconnectAttempts := s1.reconnectAttempts + 1 }
          let r := reconnect s2
          ⟨r.state, "error" :: r.events, r.thrown⟩
        else ⟨s1, ["error"], none⟩

/-- `close()` (index.ts lines 255-259): set the user-initiated flag, close
the socket, drop the handle.  Neither the reconnect timer nor the timeout
guard is touched. -/
def close (s : St) : St :=
  { s with isHandleClose := true, ws := none }

/-- `destroy()` (index.ts lines 271-275): `removeAllListeners()` (listeners
are outside `St`, see `emit`), then `close()`, then `ws = null` again. -/
def destroy (s : St) : St :=
  close s

/-- `sendCachedMessages()` (index.ts lines 199-212) replay schedule: the
cached entries in index order, paired with the delay before each send —
the first is sent immediately on open, each later one 100 ms after its
predecessor via `setTimeout(sendNextMessage, 100)`. -/
def sendCachedMessages : List CacheEntry → List (CacheEntry × Nat)
  | [] => []
  | e :: rest => (e, 0) :: rest.map (fun x => (x, 100))

/-- Behavior of one registered listener on a given firing: it either
returns normally or throws.  (Listeners themselves are opaque functions
held outside `St`; `destroy`'s `removeAllListeners()` empties that
registry.) -/
inductive ListenerBeh
  | runs
  | throws (msg : String)
deriving DecidableEq

/-- `emit(event, data)` (index.ts lines 148-153): `listeners.forEach(l =>
l(data))` with no per-listener try/catch.  Given the behaviors of the
registered listeners in registration order, returns how many listeners
were invoked and the exception that escaped `emit`, if any: `forEach`
stops at the first throw and the exception propagates. -/
def emit : List ListenerBeh → Nat × Option String
  | [] => (0, none)
  | .runs :: rest =>
      let r := emit rest
      (r.1 + 1, r.2)
  | .throws m :: _ => (1, some m)

/-! ### Concrete fixtures -/

/-- The options a caller gets by supplying only a `url` (constructor
defaults, index.ts lines 36-46). -/
def defaultOptions (url : String) : Options := { url := url }

/-- A freshly constructed `ClientWs` instance with the given options
(field initializers, index.ts lines 22-29). -/
def initialSt (o : Options) : St :=
  { ws := none, reconnectAttempts := 0, reconnectTimeout := none, isHandleClose := false,
    messageCache := [], sendMessageQueue := [], options := o }

def demoUrl : String := "ws://localhost:8080"

/-- Disconnected instance with message caching enabled. -/
def disconnectedCacheSt : St :=
  initialSt { defaultOptions demoUrl with cacheMessage := true }

/-- Connected instance (transport open), default options. -/
def openSt : St :=
  { initialSt (defaultOptions demoUrl) with ws := some ReadyState.opened }

/-- Instance whose socket just closed with `reconnectMaxTimes = 1` already
used up. -/
def exhaustedSt : St :=
  { initialSt { defaultOptions demoUrl with reconnectMaxTimes := 1 } with
      ws := some ReadyState.closed, reconnectAttempts := 1 }

/-- Instance with a reconnect timer armed (delay 5000 ms) over a closed
socket. -/
def armedTimerSt : St :=
  { initialSt (defaultOptions demoUrl) with
      ws := some ReadyState.closed, reconnectTimeout := some 5000 }

/-- Disconnected caching instance with `maxCacheMessage = 2`. -/
def cache2St : St :=
  initialSt { defaultOptions demoUrl with cacheMessage := true, maxCacheMessage := 2 }

/-- Disconnected caching instance with `maxCacheMessage = 0`. -/
def zeroCacheSt : St :=
  initialSt { defaultOptions demoUrl with cacheMessage := true, maxCacheMessage := 0 }

/-- Open instance whose pending queue holds one entry registered without a
callback. -/
def noCbQueueSt : St :=
  { initialSt (defaultOptions demoUrl) with
      ws := some ReadyState.opened,
      sendMessageQueue := [("k9", ⟨"m9", false⟩)] }

/-- Open instance whose pending queue holds one entry registered with a
callback. -/
def cbQueueSt : St :=
  { initialSt (defaultOptions demoUrl) with
      ws := some ReadyState.opened,
      sendMessageQueue := [("k8", ⟨"m8", true⟩)] }

/-! ### Association-list lemmas -/

theorem find?_append_of_all_false {α : Type} (p : α → Bool) :
    ∀ (l1 l2 : List α), (∀ x ∈ l1, p x = false) → (l1 ++ l2).find? p = l2.find? p
  | [], _, _ => rfl
  | b :: rest, l2, h => by
    have hb : p b = false := h b (List.mem_cons_self b rest)
    simp only [List.cons_append, List.find?, hb]
    exact find?_append_of_all_false p rest l2 (fun x hx => h x (List.mem_cons_of_mem b hx))

theorem find?_map_overwrite_self {α : Type} (k : String) (v : α) :
    ∀ (fs : List (String × α)), fs.any (fun p => p.1 == k) = true →
      (fs.map (fun p => if p.1 == k then (k, v) else p)).find? (fun p => p.1 == k) =
        some (k, v)
  | [], h => by simp at h
  | p :: rest, h => by
    by_cases hp : p.1 = k
    · have hpe : (p.1 == k) = true := beq_iff_eq.mpr hp
      simp [List.find?, hpe]
    · have hpe : (p.1 == k) = false := beq_eq_false_iff_ne.mpr hp
      have hrest : rest.any (fun q => q.1 == k) = true := by
        simpa [hpe] using h
      simp only [List.map_cons, hpe, Bool.false_eq_true, if_false, List.find?]
      exact find?_map_overwrite_self k v rest hrest

theorem find?_map_overwrite_ne {α : Type} (k k' : String) (v : α) (h : k' ≠ k) :
    ∀ (fs : List (String × α)),
      (fs.map (fun p => if p.1 == k then (k, v) else p)).find? (fun p => p.1 == k') =
        fs.find? (fun p => p.1 == k')
  | [] => rfl
  | p :: rest => by
    by_cases hp : p.1 = k
    · have hpe : (p.1 == k) = true := beq_iff_eq.mpr hp
      have hpk' : (p.1 == k') = false :=
        beq_eq_false_iff_ne.mpr (fun e => h (hp ▸ e ▸ rfl))
      have hkk' : ((k : String) == k') = false :=
        beq_eq_false_iff_ne.mpr (fun e => h e.symm)
      simp only [List.map_cons, hpe, if_true, List.find?, hkk', hpk']
      exact find?_map_overwrite_ne k k' v h rest
    · have hpe : (p.1 == k) = false := beq_eq_false_iff_ne.mpr hp
      by_cases hq : p.1 = k'
      · have hqe : (p.1 == k') = true := beq_iff_eq.mpr hq
        simp [List.find?, hpe, hqe]
      · have hqe : (p.1 == k') = false := beq_eq_false_iff_ne.mpr hq
        simp only [List.map_cons, hpe, Bool.false_eq_true, if_false, List.find?, hqe]
        exact find?_map_overwrite_ne k k' v h rest

theorem find?_append_single_ne {α : Type} (l : List α) (p : α → Bool) (a : α)
    (ha : p a = false) : (l ++ [a]).find? p = l.find? p := by
  induction l with
  | nil => simp [List.find?, ha]
  | cons b rest ih =>
    cases hb : p b with
    | true => simp [List.find?, hb]
    | false =>
      simp only [List.cons_append, List.find?, hb]
      exact ih

theorem lookupField_setField_self {α : Type} (fs : List (String × α)) (k : String) (v : α) :
    lookupField (setField fs k v) k = some v := by
  unfold lookupField setField
  split
  · rename_i hany
    rw [find?_map_overwrite_self k v fs hany]
    rfl
  · rename_i hany
    have hall : ∀ x ∈ fs, ((fun q : String × α => q.1 == k) x) = false := by
      intro x hx
      by_contra hc
      rw [Bool.not_eq_false] at hc
      exact hany (List.any_eq_true.mpr ⟨x, hx, hc⟩)
    rw [find?_append_of_all_false _ fs [(k, v)] hall]
    simp [List.find?]

theorem lookupField_setField_ne {α : Type} (fs : List (String × α)) (k k' : String) (v : α)
    (h : k' ≠ k) : lookupField (setField fs k v) k' = lookupField fs k' := by
  unfold lookupField setField
  split
  · rw [find?_map_overwrite_ne k k' v h fs]
  · have hkv : ((k, v).1 == k') = false := beq_eq_false_iff_ne.mpr (fun e => h e.symm)
    rw [find?_append_single_ne fs (fun q => q.1 == k') (k, v) hkv]

theorem objectAssign_cons {α : Type} (base : List (String × α)) (kv : String × α)
    (rest : List (String × α)) :
    objectAssign base (kv :: rest) = objectAssign (setField base kv.1 kv.2) rest := rfl

theorem lookupField_objectAssign_of_notMem {α : Type} (f : String) :
    ∀ (ys base : List (String × α)), (∀ kv ∈ ys, kv.1 ≠ f) →
      lookupField (objectAssign base ys) f = lookupField base f
  | [], _, _ => rfl
  | kv :: rest, base, h => by
    rw [objectAssign_cons,
        lookupField_objectAssign_of_notMem f rest (setField base kv.1 kv.2)
          (fun x hx => h x (List.mem_cons_of_mem _ hx)),
        lookupField_setField_ne base kv.1 f kv.2
          (fun e => (h kv (List.mem_cons_self _ _)) e.symm)]

theorem lookupField_objectAssign_of_mem {α : Type} (f : String) (v : α) :
    ∀ (ys base : List (String × α)), (ys.map Prod.fst).Nodup →
      lookupField ys f = some v → lookupField (objectAssign base ys) f = some v
  | [], _, _, h => by simp [lookupField] at h
  | kv :: rest, base, hnd, h => by
    have hnd' : (kv.1 ∉ rest.map Prod.fst) ∧ (rest.map Prod.fst).Nodup :=
      List.nodup_cons.mp (by simpa using hnd)
    by_cases hf : kv.1 = f
    · have hfe : (kv.1 == f) = true := beq_iff_eq.mpr hf
      have hv : kv.2 = v := by
        rw [lookupField] at h
        simpa [List.find?, hfe] using h
      have hrest : ∀ x ∈ rest, x.1 ≠ f := by
        intro x hx he
        exact hnd'.1 (by rw [hf, ← he]; exact List.mem_map_of_mem Prod.fst hx)
      rw [objectAssign_cons, lookupField_objectAssign_of_notMem f rest _ hrest, ← hf, ← hv,
          lookupField_setField_self]
    · have hf' : (kv.1 == f) = false := beq_eq_false_iff_ne.mpr hf
      have h' : lookupField rest f = some v := by
        rw [lookupField] at h
        rwa [List.find?_cons_of_neg _ (by simp [hf'])] at h
      exact lookupField_objectAssign_of_mem f v rest (setField base kv.1 kv.2) hnd'.2 h'

theorem lookupField_eq_none_iff {α : Type} (fs : List (String × α)) (k : String) :
    lookupField fs k = none ↔ ∀ kv ∈ fs, kv.1 ≠ k := by
  simp [lookupField, List.find?_eq_none]

/-! ### Basic facts about the controller's step functions -/

theorem cacheStep_ws (s : St) (d : Payload) (cb : Bool) : (cacheStep s d cb).ws = s.ws := by
  unfold cacheStep
  split
  · split <;> rfl
  · rfl

theorem cacheStep_options (s : St) (d : Payload) (cb : Bool) :
    (cacheStep s d cb).options = s.options := by
  unfold cacheStep
  split
  · split <;> rfl
  · rfl

theorem cacheStep_sendMessageQueue (s : St) (d : Payload) (cb : Bool) :
    (cacheStep s d cb).sendMessageQueue = s.sendMessageQueue := by
  unfold cacheStep
  split
  · split <;> rfl
  · rfl

theorem cacheStep_of_disconnected (s : St) (d : Payload) (cb : Bool)
    (hc : s.options.cacheMessage = true) (hw : s.ws = none) :
    (cacheStep s d cb).messageCache =
      (if s.messageCache.length < s.options.maxCacheMessage then s.messageCache
       else s.messageCache.tail) ++ [⟨d, cb⟩] := by
  unfold cacheStep
  rw [if_pos ⟨hc, hw⟩]
  split <;> rfl

theorem cacheStep_of_connected (s : St) (d : Payload) (cb : Bool) (rs : ReadyState)
    (hw : s.ws = some rs) : cacheStep s d cb = s := by
  unfold cacheStep
  rw [if_neg]
  intro hcon
  rw [hw] at hcon
  exact Option.noConfusion hcon.2

theorem sendMessageAfterCache_messageCache (s1 : St) (k : String) (d : Payload) (cb : Bool) :
    (sendMessageAfterCache s1 k d cb).state.messageCache = s1.messageCache := by
  unfold sendMessageAfterCache
  split
  · cases d <;> rfl
  · rfl

theorem sendMessage_messageCache (s : St) (k : String) (d : Payload) (cb : Bool) :
    (sendMessage s k d cb).state.messageCache = (cacheStep s d cb).messageCache := by
  unfold sendMessage
  exact sendMessageAfterCache_messageCache _ k d cb

theorem sendMessage_not_open (s : St) (k : String) (d : Payload) (cb : Bool)
    (h : s.ws ≠ some ReadyState.opened) :
    sendMessage s k d cb =
      ⟨cacheStep s d cb, if cb then [CbArg.failure "websocket 未连接"] else [], [], none⟩ := by
  unfold sendMessage sendMessageAfterCache
  rw [if_neg]
  rw [cacheStep_ws]
  exact h


/-! ### Claim theorems -/

/-- C5 (confirmed): for every attempt count `n`, base interval `b` and
ceiling `m`, the delay before the next retry is `min(b * 2 ^ n, m)`; with
`baseInterval = 1000` and `maxInterval = 10000` the attempt counts
0,1,2,3,4 yield 1000, 2000, 4000, 8000, 10000, and `reconnect` arms its
retry timer with exactly this delay. -/
theorem backoff_formula_and_sequence :
    (∀ b m n : Nat, exponentialBackoff b m n = min (b * 2 ^ n) m)
    ∧ exponentialBackoff 1000 10000 0 = 1000
    ∧ exponentialBackoff 1000 10000 1 = 2000
    ∧ exponentialBackoff 1000 10000 2 = 4000
    ∧ exponentialBackoff 1000 10000 3 = 8000
    ∧ exponentialBackoff 1000 10000 4 = 10000
    ∧ (reconnect { initialSt { defaultOptions demoUrl with reconnectInterval := 1000 } with
          ws := some ReadyState.closed, reconnectAttempts := 2 }).state.reconnectTimeout
        = some 4000 :=
  ⟨fun _ _ _ => rfl, rfl, rfl, rfl, rfl, rfl, rfl⟩

/-- C4 counterexample: over a state with a reconnect timer armed (delay
5000 ms), `destroy()` leaves the timer armed, and when that timer fires it
creates a new transport for the destroyed controller — contradicting the
claim that `close()`/`destroy()` cancel any armed reconnect timer and that
no pending timer ever creates a new transport after `destroy()`. -/
theorem destroy_timer_not_cancelled_counterexample :
    (destroy armedTimerSt).reconnectTimeout = some 5000
    ∧ (reconnectTimerFire (destroy armedTimerSt)).ws = some ReadyState.connecting :=
  ⟨rfl, rfl⟩

/-- C4 (amended): `close()` and `destroy()` leave an armed reconnect timer
armed (they cancel nothing); immediately after `destroy()` — before any
pending timer fires — every `send()` invokes its callback with the
"not connected" failure and sends nothing, but an armed reconnect timer
that fires after `destroy()` does create a new transport for the destroyed
controller. -/
theorem destroy_send_fails_but_timer_survives (s : St) (k : String) (d : Payload)
    (cb : Bool) :
    (close s).reconnectTimeout = s.reconnectTimeout
    ∧ (destroy s).reconnectTimeout = s.reconnectTimeout
    ∧ (sendMessage (destroy s) k d cb).cbCalls
        = (if cb then [CbArg.failure "websocket 未连接"] else [])
    ∧ (sendMessage (destroy s) k d cb).sent = []
    ∧ (reconnectTimerFire (destroy s)).ws = some ReadyState.connecting := by
  have hw : (destroy s).ws ≠ some ReadyState.opened := by
    simp [destroy, close]
  rw [sendMessage_not_open _ k d cb hw]
  exact ⟨rfl, rfl, rfl, rfl, rfl⟩

/-- C7 (confirmed): `close()` sets the user-initiated flag before closing
the transport, and while that flag is set `closeHandler` only emits
`close`: it neither changes the state nor invokes `reconnect`, even with
the `reconnect` option enabled — so an explicit `close()` never triggers a
reconnection attempt from the subsequent transport close event. -/
theorem close_flag_blocks_reconnect :
    (∀ s : St, (close s).isHandleClose = true)
    ∧ (∀ s : St, s.isHandleClose = true → closeHandler s = ⟨s, ["close"], none⟩)
    ∧ (∀ s : St, closeHandler (close s) = ⟨close s, ["close"], none⟩) := by
  refine ⟨fun s => rfl, ?_, ?_⟩
  · intro s h
    unfold closeHandler
    rw [if_neg]
    intro hcon
    exact hcon.2 h
  · intro s
    unfold closeHandler
    rw [if_neg]
    intro hcon
    exact hcon.2 rfl

/-- C7 witness: applying the flag-blocking property to the state produced
by an explicit `close()` of an open connection. -/
theorem close_flag_blocks_reconnect_witness :
    closeHandler (close openSt) = ⟨close openSt, ["close"], none⟩ :=
  close_flag_blocks_reconnect.2.1 (close openSt) (close_flag_blocks_reconnect.1 openSt)

/-- C10 (confirmed): after `close()` the user-initiated-close flag stays
set, `connect()` does not reset it, and the connection-timeout guard body
is a no-op while it is set: no forced close, no synthetic `error`
emission and no reconnect scheduling occur from the timeout path of a
`connect()` issued after `close()`; only the next transport `open` event
(via `openHandler`) resets the flag. -/
theorem close_then_connect_disables_timeout_guard :
    (∀ s : St, (close s).isHandleClose = true)
    ∧ (∀ s : St, (connect (close s)).state.isHandleClose = true)
    ∧ (∀ s : St, timeoutGuardFire ((connect (close s)).state)
        = ⟨(connect (close s)).state, [], none⟩)
    ∧ (∀ s : St, (openHandler s).state.isHandleClose = false) :=
  ⟨fun _ => rfl, fun _ => rfl, fun _ => rfl, fun _ => rfl⟩


/-- C8 counterexample: with two listeners registered, the first of which
throws, `emit` invokes only one listener — the second never runs — and
the exception propagates out of the `emit` call, contradicting the claim
that a listener exception neither blocks later listeners nor escapes. -/
theorem emit_throw_stops_iteration_counterexample :
    emit [ListenerBeh.throws "boom", ListenerBeh.runs] = (1, some "boom") := rfl

/-- C8 (amended): `emit` invokes listeners synchronously in registration
order; when no listener throws, all of them run and nothing escapes, but
an exception thrown by one listener prevents all later listeners from
running and propagates out of the `emit` call (there is no per-listener
isolation). -/
theorem emit_order_and_throw_propagation :
    (∀ ls : List ListenerBeh, (∀ b ∈ ls, b = ListenerBeh.runs) →
        emit ls = (ls.length, none))
    ∧ (∀ (pre : List ListenerBeh) (m : String) (post : List ListenerBeh),
        (∀ b ∈ pre, b = ListenerBeh.runs) →
        emit (pre ++ ListenerBeh.throws m :: post) = (pre.length + 1, some m)) := by
  constructor
  · intro ls h
    induction ls with
    | nil => rfl
    | cons b rest ih =>
      have hb := h b (List.mem_cons_self _ _)
      subst hb
      simp only [emit, ih (fun x hx => h x (List.mem_cons_of_mem _ hx)), List.length_cons]
  · intro pre m post h
    induction pre with
    | nil => rfl
    | cons b rest ih =>
      have hb := h b (List.mem_cons_self _ _)
      subst hb
      have ih' := ih (fun x hx => h x (List.mem_cons_of_mem _ hx))
      simp only [List.cons_append, emit, List.append_eq, ih', List.length_cons]

/-- C8 witness: two well-behaved listeners both run and nothing escapes. -/
theorem emit_order_and_throw_propagation_witness :
    emit [ListenerBeh.runs, ListenerBeh.runs] = (2, none) :=
  emit_order_and_throw_propagation.1 [ListenerBeh.runs, ListenerBeh.runs] (by decide)

/-- C1 counterexample: with `cacheMessage` enabled and no transport, a
`sendMessage` call caches the payload AND still invokes the supplied
callback with the "websocket 未连接" (not connected) failure on that same
call — contradicting the claim that the send is deferred, not failed. -/
theorem cache_send_still_fails_counterexample :
    (sendMessage disconnectedCacheSt "k1" (Payload.str "hello") true).state.messageCache
        = [⟨Payload.str "hello", true⟩]
    ∧ (sendMessage disconnectedCacheSt "k1" (Payload.str "hello") true).cbCalls
        = [CbArg.failure "websocket 未连接"] :=
  ⟨rfl, rfl⟩

/-- C1 (amended): with `cacheMessage` enabled and no transport,
`sendMessage` enqueues the payload (with its callback) as the newest
outbound-cache entry, sends nothing and throws nothing — but the send is
also reported failed: the code falls through to the not-open check, so the
supplied callback IS invoked with the "not connected" failure on that same
call. -/
theorem cache_send_enqueues_and_fails (s : St) (k : String) (d : Payload) (cb : Bool)
    (hc : s.options.cacheMessage = true) (hw : s.ws = none) :
    (sendMessage s k d cb).state.messageCache.getLast? = some ⟨d, cb⟩
    ∧ (sendMessage s k d cb).cbCalls
        = (if cb then [CbArg.failure "websocket 未连接"] else [])
    ∧ (sendMessage s k d cb).sent = []
    ∧ (sendMessage s k d cb).thrown = none := by
  have hw' : s.ws ≠ some ReadyState.opened := by
    rw [hw]
    exact fun h => Option.noConfusion h
  rw [sendMessage_not_open s k d cb hw']
  refine ⟨?_, rfl, rfl, rfl⟩
  show (cacheStep s d cb).messageCache.getLast? = some ⟨d, cb⟩
  rw [cacheStep_of_disconnected s d cb hc hw]
  exact List.getLast?_concat _

/-- C1 witness: the amended behavior at a concrete disconnected caching
state with a callback supplied. -/
theorem cache_send_enqueues_and_fails_witness :
    (sendMessage disconnectedCacheSt "kw" (Payload.str "w") true).state.messageCache.getLast?
        = some ⟨Payload.str "w", true⟩
    ∧ (sendMessage disconnectedCacheSt "kw" (Payload.str "w") true).cbCalls
        = (if true then [CbArg.failure "websocket 未连接"] else [])
    ∧ (sendMessage disconnectedCacheSt "kw" (Payload.str "w") true).sent = []
    ∧ (sendMessage disconnectedCacheSt "kw" (Payload.str "w") true).thrown = none :=
  cache_send_enqueues_and_fails disconnectedCacheSt "kw" (Payload.str "w") true rfl rfl

/-- C6 counterexample: with `maxCacheMessage = 0` (caching enabled, no
transport), a single disconnected send makes the cache hold 1 entry,
exceeding `maxCacheMessage` — the claimed bound fails for this
configuration because the eviction branch shifts from an empty cache and
then appends. -/
theorem cache_bound_zero_counterexample :
    zeroCacheSt.options.maxCacheMessage = 0
    ∧ (sendMessage zeroCacheSt "k0" (Payload.str "a") false).state.messageCache.length = 1 :=
  ⟨rfl, rfl⟩

/-- C6 (amended): provided `maxCacheMessage ≥ 1`, the outbound cache never
exceeds `maxCacheMessage`; when the cache is full a disconnected send
drops the single oldest entry and appends the new one (drop-oldest, newest
always retained); with `maxCacheMessage = 2`, sending three payloads while
disconnected retains exactly the 2nd and 3rd; and the replay schedule
sends the cached entries oldest-first, the first immediately and each
later one after a 100 ms spacing delay. -/
theorem cache_capped_drop_oldest_and_drain :
    (∀ (s : St) (k : String) (d : Payload) (cb : Bool),
        1 ≤ s.options.maxCacheMessage →
        s.messageCache.length ≤ s.options.maxCacheMessage →
        (sendMessage s k d cb).state.messageCache.length ≤ s.options.maxCacheMessage)
    ∧ (∀ (s : St) (k : String) (d : Payload) (cb : Bool),
        s.options.cacheMessage = true → s.ws = none →
        s.options.maxCacheMessage ≤ s.messageCache.length →
        (sendMessage s k d cb).state.messageCache = s.messageCache.tail ++ [⟨d, cb⟩])
    ∧ ((sendMessage ((sendMessage ((sendMessage cache2St "c1" (Payload.str "p1")
            false).state) "c2" (Payload.str "p2") false).state) "c3" (Payload.str "p3")
          false).state.messageCache
        = [⟨Payload.str "p2", false⟩, ⟨Payload.str "p3", false⟩])
    ∧ (∀ cache : List CacheEntry, (sendCachedMessages cache).map Prod.fst = cache)
    ∧ (∀ cache : List CacheEntry, ∀ p ∈ (sendCachedMessages cache).tail, p.2 = 100) := by
  refine ⟨?_, ?_, rfl, ?_, ?_⟩
  · intro s k d cb h1 h2
    rw [sendMessage_messageCache]
    unfold cacheStep
    split
    · split <;> rename_i hlen <;> simp [List.length_tail] <;> omega
    · exact h2
  · intro s k d cb hc hw hfull
    rw [sendMessage_messageCache, cacheStep_of_disconnected s d cb hc hw, if_neg (by omega)]
  · intro cache
    cases cache with
    | nil => rfl
    | cons e rest =>
      have hcomp : (Prod.fst ∘ fun x : CacheEntry => (x, (100 : Nat))) = id := rfl
      simp [sendCachedMessages, List.map_map, hcomp]
  · intro cache p hp
    cases cache with
    | nil => simp [sendCachedMessages] at hp
    | cons e rest =>
      simp only [sendCachedMessages, List.tail_cons, List.mem_map] at hp
      obtain ⟨x, _, he⟩ := hp
      rw [← he]

/-- C6 witness: the cap and the drop-oldest shape applied at the concrete
`maxCacheMessage = 2` state. -/
theorem cache_capped_drop_oldest_and_drain_witness :
    (sendMessage cache2St "cw" (Payload.str "w") false).state.messageCache.length ≤ 2
    ∧ (sendMessage
        { cache2St with messageCache := [⟨Payload.str "o1", false⟩, ⟨Payload.str "o2", false⟩] }
        "cw2" (Payload.str "n") false).state.messageCache
      = [⟨Payload.str "o1", false⟩, ⟨Payload.str "o2", false⟩].tail ++ [⟨Payload.str "n", false⟩] :=
  ⟨cache_capped_drop_oldest_and_drain.1 cache2St "cw" (Payload.str "w") false
      (by decide) (by decide),
   cache_capped_drop_oldest_and_drain.2.1
      { cache2St with messageCache := [⟨Payload.str "o1", false⟩, ⟨Payload.str "o2", false⟩] }
      "cw2" (Payload.str "n") false rfl rfl (by decide)⟩


/-- C3 counterexample: at a state whose socket just closed with
`reconnectMaxTimes = 1` already used up, the transport close handler
propagates a thrown `Error("Max reconnect attempts reached")` and emits
only `close` — no `error` event — contradicting the claim that exhaustion
is surfaced via an error event and never thrown from a transport-event
handler context. -/
theorem reconnect_exhaustion_throws_counterexample :
    (closeHandler exhaustedSt).thrown = some "Max reconnect attempts reached"
    ∧ (closeHandler exhaustedSt).events = ["close"] :=
  ⟨rfl, rfl⟩

/-- C3 (amended): when `reconnectMaxTimes` is nonzero and the attempt
counter has reached it (and a transport handle exists), `reconnect()`
surfaces exhaustion by THROWING `Error("Max reconnect attempts
reached")` — emitting no event and changing no state — and this throw
propagates out of the transport close handler (and equally out of the
timer callbacks that call `reconnect`); no `error` event is emitted for
exhaustion. -/
theorem reconnect_exhaustion_throws (s : St) (rs : ReadyState)
    (hw : s.ws = some rs) (hmax : s.options.reconnectMaxTimes ≠ 0)
    (hatt : s.options.reconnectMaxTimes ≤ s.reconnectAttempts) :
    reconnect s = ⟨s, [], some "Max reconnect attempts reached"⟩
    ∧ (s.options.reconnect = true → s.isHandleClose = false →
        closeHandler s = ⟨s, ["close"], some "Max reconnect attempts reached"⟩) := by
  have hrec : reconnect s = ⟨s, [], some "Max reconnect attempts reached"⟩ := by
    unfold reconnect
    rw [hw]
    exact if_pos ⟨hmax, hatt⟩
  refine ⟨hrec, fun hr hh => ?_⟩
  unfold closeHandler
  rw [if_pos ⟨hr, by rw [hh]; exact Bool.false_ne_true⟩, hrec]

/-- C3 witness: the amended throwing behavior at the concrete exhausted
state. -/
theorem reconnect_exhaustion_throws_witness :
    reconnect exhaustedSt = ⟨exhaustedSt, [], some "Max reconnect attempts reached"⟩
    ∧ closeHandler exhaustedSt
        = ⟨exhaustedSt, ["close"], some "Max reconnect attempts reached"⟩ := by
  have h := reconnect_exhaustion_throws exhaustedSt ReadyState.closed rfl
    (by decide) (by decide)
  exact ⟨h.1, h.2 rfl rfl⟩

/-- C2 counterexample: sending the object payload `{message_id: "x"}` over
an open transport with `uniqueKey = "message_id"` and fresh key `"fresh"`
produces a merged payload in which the caller value `"x"` — not the
generated key — sits under the correlation field, and the wire message is
exactly the serialization of the caller payload (the fresh key is absent):
the correlation field does NOT overwrite the caller field of the same
name. -/
theorem correlation_field_overwritten_counterexample :
    lookupField (mergedPayload "message_id" "fresh" [("message_id", "x")]) "message_id"
        = some "x"
    ∧ ("x" : String) ≠ "fresh"
    ∧ (sendMessage openSt "fresh" (Payload.obj [("message_id", "x")]) false).sent
        = [jsonStringify (mergedPayload "message_id" "fresh" [("message_id", "x")])]
    ∧ jsonStringify (mergedPayload "message_id" "fresh" [("message_id", "x")])
        = jsonStringify [("message_id", "x")] :=
  ⟨rfl, by decide, rfl, rfl⟩

/-- C2 (amended): for an object payload sent while the transport is open,
`sendMessage` merges a freshly generated correlation key into the payload
under `options.uniqueKey` with ALL caller-supplied fields preserved —
including one named like the correlation field, whose caller value
overwrites the generated key (`Object.assign` applies the caller object
last); the key is only added when the caller did not supply that field.
The serialized merge is sent, and the generated key (regardless of any
collision) is registered in the pending table together with the message
and callback; the callback is not invoked and nothing is thrown. -/
theorem send_obj_merge_register_send (s : St) (k : String)
    (fields : List (String × String)) (cb : Bool)
    (hw : s.ws = some ReadyState.opened)
    (hnd : (fields.map Prod.fst).Nodup) :
    (sendMessage s k (Payload.obj fields) cb).sent
        = [jsonStringify (mergedPayload s.options.uniqueKey k fields)]
    ∧ (∀ f v, lookupField fields f = some v →
        lookupField (mergedPayload s.options.uniqueKey k fields) f = some v)
    ∧ (lookupField fields s.options.uniqueKey = none →
        lookupField (mergedPayload s.options.uniqueKey k fields) s.options.uniqueKey
          = some k)
    ∧ lookupField (sendMessage s k (Payload.obj fields) cb).state.sendMessageQueue k
        = some ⟨jsonStringify (mergedPayload s.options.uniqueKey k fields), cb⟩
    ∧ (sendMessage s k (Payload.obj fields) cb).cbCalls = []
    ∧ (sendMessage s k (Payload.obj fields) cb).thrown = none := by
  have hcs : cacheStep s (Payload.obj fields) cb = s :=
    cacheStep_of_connected s _ cb _ hw
  have hsm : sendMessage s k (Payload.obj fields) cb =
      ⟨{ s with sendMessageQueue := (setField s.sendMessageQueue k
            ⟨jsonStringify (mergedPayload s.options.uniqueKey k fields), cb⟩) },
       [], [jsonStringify (mergedPayload s.options.uniqueKey k fields)], none⟩ := by
    unfold sendMessage
    rw [hcs]
    unfold sendMessageAfterCache
    rw [if_pos hw]
  refine ⟨by rw [hsm], ?_, ?_, ?_, by rw [hsm], by rw [hsm]⟩
  · intro f v hv
    exact lookupField_objectAssign_of_mem f v fields _ hnd hv
  · intro hnone
    have hall := (lookupField_eq_none_iff fields s.options.uniqueKey).mp hnone
    rw [mergedPayload, lookupField_objectAssign_of_notMem _ fields _ hall]
    exact lookupField_setField_self [] s.options.uniqueKey k
  · rw [hsm]
    exact lookupField_setField_self s.sendMessageQueue k _

/-- C2 witness: at a concrete open state with payload `{text: "hi"}` the
correlation field carries the fresh key, and the pending table holds the
serialized message under that key. -/
theorem send_obj_merge_register_send_witness :
    lookupField (mergedPayload "message_id" "kc" [("text", "hi")]) "message_id" = some "kc"
    ∧ lookupField
        (sendMessage openSt "kc" (Payload.obj [("text", "hi")]) true).state.sendMessageQueue
        "kc"
      = some ⟨jsonStringify (mergedPayload "message_id" "kc" [("text", "hi")]), true⟩ := by
  have h := send_obj_merge_register_send openSt "kc" [("text", "hi")] true rfl (by decide)
  exact ⟨h.2.2.1 rfl, h.2.2.2.1⟩

/-- C9 counterexample: an inbound correlated message whose pending entry
was registered WITHOUT a callback is not removed from the pending table
(the `delete` sits inside `if (callback != null)`), contradicting the
claim that resolution always looks up AND removes the entry for the key. -/
theorem resolve_no_callback_counterexample :
    (messageHandler noCbQueueSt (Inbound.parsed [("message_id", "k9")])).state.sendMessageQueue
        = [("k9", ⟨"m9", false⟩)]
    ∧ (messageHandler noCbQueueSt (Inbound.parsed [("message_id", "k9")])).cbCalls = [] :=
  ⟨rfl, rfl⟩

/-- C9 (amended): for an inbound correlated message (a truthy value `v`
under `options.uniqueKey`): when the pending entry for `v` has a callback,
the entry is removed and the callback invoked exactly once with either the
payload (socket open) or a "connection not open" failure; when the entry
was registered without a callback it is left in the table and nothing is
invoked; when no entry exists for `v`, the internal property-read error is
caught and logged by the handler's `catch` and nothing observable reaches
any caller — state unchanged, no callback invoked, nothing rethrown. -/
theorem resolve_pending_table (s : St) (fields : List (String × String)) (v : String)
    (hkey : lookupField fields s.options.uniqueKey = some v) (hv : v ≠ "") :
    (∀ entry : QueueEntry, lookupField s.sendMessageQueue v = some entry →
        entry.hasCallback = true →
        messageHandler s (Inbound.parsed fields)
          = ⟨{ s with sendMessageQueue := removeField s.sendMessageQueue v }, ["message"],
             [(v, if s.ws = some ReadyState.opened then CbArg.success fields
                  else CbArg.failure "websocket connection is not open")], false⟩)
    ∧ (∀ entry : QueueEntry, lookupField s.sendMessageQueue v = some entry →
        entry.hasCallback = false →
        messageHandler s (Inbound.parsed fields) = ⟨s, ["message"], [], false⟩)
    ∧ (lookupField s.sendMessageQueue v = none →
        messageHandler s (Inbound.parsed fields) = ⟨s, ["message"], [], true⟩) := by
  refine ⟨?_, ?_, ?_⟩
  · intro e he hcb
    simp [messageHandler, hkey, hv, he, hcb]
  · intro e he hcb
    simp [messageHandler, hkey, hv, he, hcb]
  · intro he
    simp [messageHandler, hkey, hv, he]

/-- C9 witness: resolving a concrete entry that has a callback removes it
and invokes the callback once with the payload. -/
theorem resolve_pending_table_witness :
    messageHandler cbQueueSt (Inbound.parsed [("message_id", "k8")])
      = ⟨{ cbQueueSt with sendMessageQueue := removeField cbQueueSt.sendMessageQueue "k8" },
         ["message"], [("k8", CbArg.success [("message_id", "k8")])], false⟩ := by
  have h := (resolve_pending_table cbQueueSt [("message_id", "k8")] "k8" rfl
    (by decide)).1 ⟨"m8", true⟩ rfl rfl
  exact h

end ClientWs
